import Mathlib

/-!
Verification of the parameter-assignment engine of this repository against its
design specification.  The engine itself (openff/interchange/components/smirnoff.py)
is not part of the corpus; only its unit tests
(openff/interchange/tests/unit_tests/components/test_smirnoff.py) and the
energy-comparison driver (openff/system/drivers/openmm.py) are.  Definitions for
the engine are therefore modelled from the spec, with behaviour pinned by the
in-repo tests wherever a test exercises it; the energy driver is embedded
directly from its source.  Physical quantities are modelled as exact rationals.
-/

/-- Modelled from the spec: `TopologyKey` of openff/interchange/models.py
(missing from the corpus) — an ordered tuple of atom indices, an optional
multiplicity discriminator and an optional continuous bond-order value;
immutable, with structural equality. -/
structure TopologyKey where
  atom_indices : List Nat
  mult : Option Nat := none
  bond_order : Option ℚ := none
  deriving DecidableEq, Repr

/-- Modelled from the spec: `PotentialKey` of openff/interchange/models.py
(missing from the corpus) — the originating pattern id, an optional
multiplicity and the owning category name. -/
structure PotentialKey where
  id : String
  mult : Option Nat := none
  associated_handler : String := ""
  deriving DecidableEq, Repr

/-- Insert-or-overwrite into an association list, mirroring Python dict
assignment `d[k] = v` (overwrites in place, appends new keys at the end;
keys stay unique). -/
def upsert {α β : Type} [DecidableEq α] : List (α × β) → α → β → List (α × β)
  | [], k, v => [(k, v)]
  | p :: rest, k, v =>
    if p.1 = k then (k, v) :: rest else p :: upsert rest k v

/-- Association-list lookup, mirroring Python dict lookup. -/
def alookup {α β : Type} [DecidableEq α] : List (α × β) → α → Option β
  | [], _ => none
  | p :: rest, k => if p.1 = k then some p.2 else alookup rest k

/-- The three cyclic orderings of the non-central atoms of an improper
torsion, in the generation order used by the improper-torsion handler. -/
def cyclicTriples (a b c : Nat) : List (Nat × Nat × Nat) :=
  [(a, b, c), (b, c, a), (c, a, b)]

/-- Modelled from the spec: `SMIRNOFFImproperTorsionHandler.store_matches` of
openff/interchange/components/smirnoff.py (missing from the corpus).  Each
pattern match arrives as a 4-tuple of atom indices with the trigonal central
atom in the second position; for each match the handler records three slot-map
entries, keyed by the central atom followed by one cyclic ordering of the three
outer substituents.  Per the in-repo test
`TestSMIRNOFFHandlers.test_store_improper_torsion_matches`, every such
`TopologyKey` carries multiplicity 0. -/
def storeImproperMatches (matchList : List ((Nat × Nat × Nat × Nat) × String)) :
    List (TopologyKey × PotentialKey) :=
  matchList.foldl
    (fun slotMap m =>
      let key := m.1
      let smirks := m.2
      (cyclicTriples key.1 key.2.2.1 key.2.2.2).foldl
        (fun sm p =>
          upsert sm
            ⟨[key.2.1, p.1, p.2.1, p.2.2], some 0, none⟩
            ⟨smirks, some 0, "ImproperTorsions"⟩)
        slotMap)
    []

/-- The single improper-torsion match the pattern
`[*:1]~[#6X3:2](~[*:3])~[*:4]` produces on formaldehyde
`[H:3][C:1]([H:4])=[O:2]` (atoms: 0 = C, 1 = O, 2 = H, 3 = H; the central
carbon sits in the second position of the match tuple, the outer atoms are
listed in sorted order), as exercised by
`TestSMIRNOFFHandlers.test_store_improper_torsion_matches`. -/
def formaldehydeImproperMatches : List ((Nat × Nat × Nat × Nat) × String) :=
  [((1, 0, 2, 3), "[*:1]~[#6X3:2](~[*:3])~[*:4]")]

/-- Modelled from the spec: the symmetric per-match charge-increment deltas of
the electrostatics resolver (openff/interchange/components/smirnoff.py, missing
from the corpus).  A matched increment `(a, b, x)` adds `x` to atom `a` and
subtracts `x` from its partner `b`. -/
def incrementPairs (incs : List (Nat × Nat × ℚ)) : List (Nat × ℚ) :=
  incs.flatMap (fun m => [(m.1, m.2.2), (m.2.1, -m.2.2)])

/-- Total delta a list of (atom, delta) pairs places on atom `i`
(overlapping deltas on the same atom accumulate by summation). -/
def pairContribution (pairs : List (Nat × ℚ)) (i : Nat) : ℚ :=
  (pairs.map (fun p => if p.1 = i then p.2 else 0)).sum

/-- Total charge-increment contribution on atom `i`. -/
def incrementContribution (incs : List (Nat × Nat × ℚ)) (i : Nat) : ℚ :=
  pairContribution (incrementPairs incs) i

/-- Modelled from the spec: application of all matched charge increments on
top of base per-atom charges. -/
def applyChargeIncrements (base : List ℚ) (incs : List (Nat × Nat × ℚ)) :
    List ℚ :=
  (List.range base.length).map (fun i => base.getD i 0 + incrementContribution incs i)

/-- The sum over all atoms of a molecule of the increment contributions. -/
def totalIncrement (n : Nat) (incs : List (Nat × Nat × ℚ)) : ℚ :=
  ((List.range n).map (incrementContribution incs)).sum

/-- The charge-assignment inputs the electrostatics resolver sees for one
molecule: per-atom pattern-matched library charges (when a library pattern
matched the atom), the presence and base method of a charge-increment model,
the matched increments, the presence of an AM1-BCC handler, and an optional
externally supplied per-molecule charge override. -/
structure MoleculeChargeSpec where
  nAtoms : Nat
  libraryCharges : List (Option ℚ)
  hasIncrementModel : Bool
  incrementBaseMethod : String
  chargeIncrements : List (Nat × Nat × ℚ)
  hasAM1BCC : Bool
  chargeOverride : Option (List ℚ)

/-- Modelled from the spec: the per-molecule charge resolution of
`SMIRNOFFElectrostaticsHandler` (openff/interchange/components/smirnoff.py,
missing from the corpus).  An explicit per-molecule override replaces every
other source; otherwise a molecule fully covered by library charges takes
exactly those (per the in-repo test
`TestInterchangeFromSMIRNOFF.test_sage_tip3p_charges`, library charges are
applied over AM1-BCC charges); otherwise a charge-increment model applies its
increments on top of the charges of its base method, obtained from the external
quantum charge-assignment oracle; otherwise an AM1-BCC handler takes the
oracle's charges for that method. -/
def resolveMoleculeCharges (oracle : String → List ℚ) (m : MoleculeChargeSpec) :
    List ℚ :=
  match m.chargeOverride with
  | some cs => cs
  | none =>
    if m.libraryCharges.length = m.nAtoms ∧ m.libraryCharges.all Option.isSome then
      m.libraryCharges.map (fun c => c.getD 0)
    else if m.hasIncrementModel then
      applyChargeIncrements (oracle m.incrementBaseMethod) m.chargeIncrements
    else if m.hasAM1BCC then
      oracle "am1bcc"
    else
      List.replicate m.nAtoms 0

/-- The charge-assignment inputs for water under the openff-2.0.0 (Sage) force
field as in `test_sage_tip3p_charges`: the packaged TIP3P library charges
match every atom, and a ToolkitAM1BCC handler is also registered. -/
def sageWaterInputs : MoleculeChargeSpec :=
  { nAtoms := 3
    libraryCharges := [some (-417/500), some (417/1000), some (417/1000)]
    hasIncrementModel := false
    incrementBaseMethod := ""
    chargeIncrements := []
    hasAM1BCC := true
    chargeOverride := none }

/-- A concrete stand-in for the external quantum charge-assignment oracle on
water: AM1-BCC charges distinct from the TIP3P library charges. -/
def waterAM1BCCOracle : String → List ℚ :=
  fun _ => [-4/5, 2/5, 2/5]

/-- A topology collaborator for valence coverage: per-atom element symbols and
the molecular graph's bonds. -/
structure ValenceTopology where
  elements : List String
  bonds : List (Nat × Nat)

/-- Whether atoms `i` and `j` are bonded in the molecular graph. -/
def adjacentAtoms (t : ValenceTopology) (i j : Nat) : Bool :=
  t.bonds.any (fun b => (b.1 = i && b.2 = j) || (b.1 = j && b.2 = i))

/-- The bonds implied by the molecular graph, as atom-index tuples. -/
def impliedBonds (t : ValenceTopology) : List (List Nat) :=
  t.bonds.map (fun b => [b.1, b.2])

/-- The angles implied by the molecular graph: every path i-j-k of two bonds,
one orientation per angle. -/
def impliedAngles (t : ValenceTopology) : List (List Nat) :=
  (List.range t.elements.length).flatMap (fun j =>
    (List.range t.elements.length).flatMap (fun i =>
      (List.range t.elements.length).flatMap (fun k =>
        if i < k ∧ i ≠ j ∧ j ≠ k ∧ adjacentAtoms t i j ∧ adjacentAtoms t j k then
          [[i, j, k]]
        else [])))

/-- The proper torsions implied by the molecular graph: every path i-j-k-l of
three bonds over four distinct atoms, one orientation per torsion. -/
def impliedPropers (t : ValenceTopology) : List (List Nat) :=
  (List.range t.elements.length).flatMap (fun i =>
    (List.range t.elements.length).flatMap (fun j =>
      (List.range t.elements.length).flatMap (fun k =>
        (List.range t.elements.length).flatMap (fun l =>
          if j < k ∧ i ≠ j ∧ i ≠ k ∧ i ≠ l ∧ j ≠ l ∧ k ≠ l ∧
              adjacentAtoms t i j ∧ adjacentAtoms t j k ∧ adjacentAtoms t k l then
            [[i, j, k, l]]
          else []))))

/-- Element symbols of a tuple of atom indices. -/
def symbolsOf (t : ValenceTopology) (ix : List Nat) : List String :=
  ix.map (fun i => t.elements.getD i "")

/-- A valence feature is covered when its slot map holds an entry for its atom
tuple in either orientation. -/
def coveredFeature (keys : List (List Nat)) (ix : List Nat) : Bool :=
  keys.contains ix || keys.contains ix.reverse

/-- The graph-implied features of one category with no slot-map entry. -/
def uncovered (features : List (List Nat)) (keys : List (List Nat)) :
    List (List Nat) :=
  features.filter (fun f => !(coveredFeature keys f))

/-- The payload of an unassigned-parameter failure: the raising handler, the
exception class, and each unmatched feature's atom indices with their element
symbols. -/
structure UnassignedReport where
  handlerName : String
  exceptionName : String
  missing : List (List Nat × List String)
  deriving DecidableEq, Repr

/-- Builds the failure payload for one category from the unmatched tuples. -/
def mkUnassignedReport (t : ValenceTopology) (handlerName exceptionName : String)
    (miss : List (List Nat)) : UnassignedReport :=
  ⟨handlerName, exceptionName, miss.map (fun ix => (ix, symbolsOf t ix))⟩

/-- Modelled from the spec: the resolve-missing step of the per-category
assignment handlers (openff/interchange/components/smirnoff.py, missing from
the corpus).  After all patterns are tried, any graph-implied bond, angle or
proper torsion without a slot-map entry is a hard failure:
`UnassignedValenceParameterException` for bonds and angles,
`UnassignedProperTorsionParameterException` for torsions, reporting the
unmatched atom indices and element symbols. -/
def checkValenceCoverage (t : ValenceTopology)
    (bondKeys angleKeys properKeys : List (List Nat)) :
    Except UnassignedReport Unit :=
  let ub := uncovered (impliedBonds t) bondKeys
  let ua := uncovered (impliedAngles t) angleKeys
  let up := uncovered (impliedPropers t) properKeys
  if ub ≠ [] then
    .error (mkUnassignedReport t "BondHandler"
      "UnassignedValenceParameterException" ub)
  else if ua ≠ [] then
    .error (mkUnassignedReport t "AngleHandler"
      "UnassignedValenceParameterException" ua)
  else if up ≠ [] then
    .error (mkUnassignedReport t "ProperTorsionHandler"
      "UnassignedProperTorsionParameterException" up)
  else
    .ok ()

/-- The whole-build wrapper around coverage: a coverage failure aborts the
build, so no partially parameterized result is ever returned. -/
def buildValence (t : ValenceTopology)
    (bondKeys angleKeys properKeys : List (List Nat)) :
    Except UnassignedReport (List (List Nat) × List (List Nat) × List (List Nat)) :=
  match checkValenceCoverage t bondKeys angleKeys properKeys with
  | .error e => .error e
  | .ok _ => .ok (bondKeys, angleKeys, properKeys)

/-- Water as a valence topology: atoms O, H, H with bonds O-H and O-H. -/
def waterValenceTopology : ValenceTopology :=
  ⟨["O", "H", "H"], [(0, 1), (0, 2)]⟩

/-- A bond parameter declared per-bond-order: two anchor values at bond orders
1 and 2 for the force constant (kcal/mol/A**2) and for the length (angstrom),
plus the chemical-environment pattern, abstracted here as the Pattern Matcher
collaborator's verdict on the two bonded elements. -/
structure BondBOParameter where
  smirks : String
  kAnchor1 : ℚ
  kAnchor2 : ℚ
  lengthAnchor1 : ℚ
  lengthAnchor2 : ℚ
  matchesBond : String → String → Bool

/-- Modelled from the spec: linear interpolation between the two declared
bond-order anchor points (anchors sit at bond orders 1 and 2). -/
def interpolateLinear (v1 v2 bo : ℚ) : ℚ :=
  v1 + (v2 - v1) * (bo - 1)

/-- The last (most specific, hierarchical-override) pattern of the declared
priority order that matches the bond. -/
def lastMatchingBO (params : List BondBOParameter) (e1 e2 : String) :
    Option BondBOParameter :=
  params.foldl (fun acc p => if p.matchesBond e1 e2 then some p else acc) none

/-- A topology collaborator for bond parameterization.  Besides the graph and
elements it carries state the assignment engine must NOT consult: the
fractional bond orders already stored on the topology's own molecules and
their conformer coordinates. -/
structure BondTopology where
  elements : List String
  bonds : List (Nat × Nat)
  storedBondOrders : List ((Nat × Nat) × ℚ)
  conformers : List (List (ℚ × ℚ × ℚ))

/-- Modelled from the spec: the interpolation step of `SMIRNOFFBondHandler`
(openff/interchange/components/smirnoff.py, missing from the corpus).  For
every bond, the winning per-bond-order parameter's values are interpolated at
the ACTUAL fractional bond order supplied externally for that bond (from
`partial_bond_orders_from_molecules` or a fresh oracle call), never the
topology's own stored value; the slot key carries the bond order used. -/
def buildBondPotentials (params : List BondBOParameter) (t : BondTopology)
    (externalBO : Nat → Nat → ℚ) : List (TopologyKey × (ℚ × ℚ)) :=
  t.bonds.foldl
    (fun acc b =>
      match lastMatchingBO params (t.elements.getD b.1 "") (t.elements.getD b.2 "") with
      | none => acc
      | some p =>
        let bo := externalBO b.1 b.2
        upsert acc ⟨[b.1, b.2], none, some bo⟩
          (interpolateLinear p.kAnchor1 p.kAnchor2 bo,
           interpolateLinear p.lengthAnchor1 p.lengthAnchor2 bo))
    []

/-- The per-bond-order parameter of the test force field `xml_ff_bo`:
k anchors (101.0, 123.0) kcal/mol/A**2 and length anchors (1.4, 1.3) A for a
carbon-oxygen bond. -/
def xmlFFBOParams : List BondBOParameter :=
  [{ smirks := "[#6X4:1]~[#8X2:2]"
     kAnchor1 := 101
     kAnchor2 := 123
     lengthAnchor1 := 7/5
     lengthAnchor2 := 13/10
     matchesBond := fun a b => (a == "C" && b == "O") || (a == "O" && b == "C") }]

/-- A minimal topology holding one carbon-oxygen bond. -/
def demoCOTopology : BondTopology :=
  ⟨["C", "O"], [(0, 1)], [], []⟩

/-- The same topology with different stored fractional bond orders and an
added conformer — state the engine must ignore. -/
def demoCOTopologyPerturbed : BondTopology :=
  ⟨["C", "O"], [(0, 1)], [((0, 1), 999)], [[(0, 0, 0), (1, 0, 0)]]⟩

/-- The externally supplied fractional bond order of 1.55 for the matched
bond. -/
def demoExternalBO : Nat → Nat → ℚ :=
  fun _ _ => 31/20

/-- A per-category assignment handler's registry entry: its category name and
the set of legacy parameter-definition tags it accepts. -/
structure HandlerSpec where
  name : String
  allowedParameterHandlers : List String

/-- A legacy parameter-definition object: its class tag and its ordered
pattern records. -/
structure ParameterDefinitionSet where
  tag : String
  patterns : List String

/-- Modelled from the spec: the accept-then-match step of
`SMIRNOFFPotentialHandler._from_toolkit`
(openff/interchange/components/smirnoff.py, missing from the corpus).  The
supplied definition's tag must be in the handler's allowed set — otherwise an
`InvalidParameterHandlerError` is raised eagerly, before any matching — and
only then are the patterns run against the topology in declared order, later
matches overwriting earlier ones for an identical key. -/
def fromToolkitAccept (h : HandlerSpec) (pset : ParameterDefinitionSet)
    (matcher : String → List (List Nat)) :
    Except String (List (TopologyKey × PotentialKey)) :=
  if h.allowedParameterHandlers.contains pset.tag then
    .ok (pset.patterns.foldl
      (fun sm pat =>
        (matcher pat).foldl
          (fun sm2 idxs => upsert sm2 ⟨idxs, none, none⟩ ⟨pat, none, h.name⟩)
          sm)
      [])
  else
    .error "InvalidParameterHandlerError"

/-- The angle assignment handler accepts only `AngleHandler` definitions. -/
def angleHandlerSpec : HandlerSpec :=
  ⟨"Angles", ["AngleHandler"]⟩

/-- The dummy handler of
`TestSMIRNOFFPotentialHandler.test_allowed_parameter_handler_types`, accepting
only `DummyParameterHandler` definitions. -/
def dummyHandlerSpec : HandlerSpec :=
  ⟨"Bonds", ["DummyParameterHandler"]⟩

/-- A legacy `AngleHandler` definition set (empty parameter list). -/
def angleDefinitionSet : ParameterDefinitionSet :=
  ⟨"AngleHandler", []⟩

/-- A legacy `DummyParameterHandler` definition set. -/
def dummyDefinitionSet : ParameterDefinitionSet :=
  ⟨"DummyParameterHandler", []⟩

/-- A virtual-site record: the orientation atoms it is keyed to (indices into
its molecule's atoms) and the charge increments it pulls from them, one per
orientation atom.  The site's own charge is minus the sum of its increments. -/
structure VirtualSiteRec where
  orientation : List Nat
  increments : List ℚ
  deriving DecidableEq, Repr

/-- The charge placed on a virtual site: minus the total charge it pulled off
its orientation atoms. -/
def vsiteCharge (v : VirtualSiteRec) : ℚ :=
  -(v.increments.sum)

/-- One molecule after electrostatics resolution and virtual-site matching:
its formal total charge, its resolved per-atom charges before virtual-site
increments, and its matched virtual sites in match order. -/
structure MoleculeVS where
  formalCharge : ℚ
  atomCharges : List ℚ
  vsites : List VirtualSiteRec
  deriving DecidableEq, Repr

/-- The total virtual-site increment contribution pulled from atom `i`. -/
def vsiteIncrementOn (vsites : List VirtualSiteRec) (i : Nat) : ℚ :=
  (vsites.map (fun v => pairContribution (v.orientation.zip v.increments) i)).sum

/-- The molecule's per-atom charges after every matched virtual site has
applied its increments to its orientation atoms. -/
def moleculeFinalAtomCharges (m : MoleculeVS) : List ℚ :=
  (List.range m.atomCharges.length).map
    (fun i => m.atomCharges.getD i 0 + vsiteIncrementOn m.vsites i)

/-- A particle of the built system: a real atom or a massless virtual site,
each carrying its final charge. -/
inductive Particle
  | atom (charge : ℚ)
  | vsite (charge : ℚ)
  deriving DecidableEq, Repr

/-- The charge of a particle. -/
def Particle.charge : Particle → ℚ
  | .atom c => c
  | .vsite c => c

/-- Whether a particle is a virtual site. -/
def Particle.isVSite : Particle → Bool
  | .atom _ => false
  | .vsite _ => true

/-- Modelled from the spec: the particles one molecule contributes to the
built system — its real atoms followed by its virtual sites in match order,
as pinned by the `expected_parameters` orderings of
`TestSMIRNOFFVirtualSites.test_create_force`. -/
def moleculeParticles (m : MoleculeVS) : List Particle :=
  (moleculeFinalAtomCharges m).map .atom ++ m.vsites.map (fun v => .vsite (vsiteCharge v))

/-- Modelled from the spec: the built particle list of the whole topology,
molecule blocks in topology order. -/
def particleList (mols : List MoleculeVS) : List Particle :=
  (mols.map moleculeParticles).flatten

/-- The index in the built particle list at which molecule `k`'s block
starts. -/
def blockOffset (mols : List MoleculeVS) (k : Nat) : Nat :=
  (((mols.take k).map moleculeParticles).map List.length).sum

/-- The claim's ordering property: no virtual-site particle index is smaller
than any real atom's index. -/
def noVSiteBeforeAtom (pl : List Particle) : Prop :=
  ∀ i j : Fin pl.length,
    (pl.get i).isVSite = true → (pl.get j).isVSite = false → (j : Nat) < (i : Nat)

/-- Chloromethane under the mock bond-charge virtual-site parameter of
`TestSMIRNOFFVirtualSites.test_create_force`: atoms Cl, C, H, H, H with zero
library charges and one virtual site pulling increments 0.1 and 0.2 from Cl
and C. -/
def demoChloromethane : MoleculeVS :=
  ⟨0, [0, 0, 0, 0, 0], [⟨[0, 1], [1/10, 1/5]⟩]⟩

/-- The same molecule with its atom order reversed (H, H, H, C, Cl). -/
def demoChloromethaneRev : MoleculeVS :=
  ⟨0, [0, 0, 0, 0, 0], [⟨[4, 3], [1/10, 1/5]⟩]⟩

/-- The two-molecule topology of the chloromethane case of
`test_create_force`. -/
def demoVSMols : List MoleculeVS :=
  [demoChloromethane, demoChloromethaneRev]

/-- The OpenMM force classes the energy driver distinguishes. -/
inductive OmmForceKind
  | harmonicBond
  | harmonicAngle
  | periodicTorsion
  | rbTorsion
  | nonbonded
  | customNonbonded
  | customBond
  | other
  deriving DecidableEq, Repr

/-- An `openmm.System` as the driver sees it: its forces in order, each with
the potential energy OpenMM reports for that force's group (kJ/mol). -/
def OmmSystem : Type := List (OmmForceKind × ℚ)

/-- Add into an association list under a key, mirroring the driver's
`if key in d: d[key] += v else: d[key] = v`. -/
def addToKey (es : List (String × ℚ)) (k : String) (v : ℚ) : List (String × ℚ) :=
  match alookup es k with
  | some w => upsert es k (w + v)
  | none => es ++ [(k, v)]

/-- One iteration of the raw-energy collection loop of `_get_openmm_energies`
(openff/system/drivers/openmm.py): `HarmonicBondForce`, `HarmonicAngleForce`
and `PeriodicTorsionForce` energies are stored (overwriting) under their class
names; `NonbondedForce`, `CustomNonbondedForce` and `CustomBondForce` energies
accumulate under `Nonbonded`; every other force class falls through. -/
def collectStep (es : List (String × ℚ)) (f : OmmForceKind × ℚ) :
    List (String × ℚ) :=
  match f.1 with
  | .harmonicBond => upsert es "HarmonicBondForce" f.2
  | .harmonicAngle => upsert es "HarmonicAngleForce" f.2
  | .periodicTorsion => upsert es "PeriodicTorsionForce" f.2
  | .nonbonded => addToKey es "Nonbonded" f.2
  | .customNonbonded => addToKey es "Nonbonded" f.2
  | .customBond => addToKey es "Nonbonded" f.2
  | _ => es

/-- The raw-energy collection loop of `_get_openmm_energies`. -/
def collectRawEnergies (sys : OmmSystem) : List (String × ℚ) :=
  sys.foldl collectStep []

/-- Dictionary `get` with a zero default, as in `omm_energies.get(k, 0.0)`. -/
def getDQ (es : List (String × ℚ)) (k : String) : ℚ :=
  (alookup es k).getD 0

/-- `_canonicalize_torsion_energies` of openff/system/drivers/openmm.py: sums
the `PeriodicTorsionForce` and `RBTorsionForce` entries of the given energy
dictionary, skipping missing keys. -/
def canonicalizeTorsionEnergies (es : List (String × ℚ)) : ℚ :=
  ["PeriodicTorsionForce", "RBTorsionForce"].foldl
    (fun acc k =>
      match alookup es k with
      | some v => acc + v
      | none => acc)
    0

/-- `_canonicalize_nonbonded_energies` of openff/system/drivers/openmm.py:
sums the `NonbondedForce`, `CustomNonbondedForce` and `CustomBondForce`
entries of the given energy dictionary, skipping missing keys. -/
def canonicalizeNonbondedEnergies (es : List (String × ℚ)) : ℚ :=
  ["NonbondedForce", "CustomNonbondedForce", "CustomBondForce"].foldl
    (fun acc k =>
      match alookup es k with
      | some v => acc + v
      | none => acc)
    0

/-- Modelled from the spec: `EnergyReport` of openff/system/drivers/report.py
(missing from the corpus); its `energies` mapping starts with the categories
Bond, Angle, Torsion, vdW and Electrostatics unset, as implied by the driver
popping `vdW` and `Electrostatics` after updating the other keys. -/
structure EnergyReport where
  energies : List (String × Option ℚ)
  deriving DecidableEq, Repr

/-- A fresh `EnergyReport()`. -/
def initEnergyReport : EnergyReport :=
  ⟨[("Bond", none), ("Angle", none), ("Torsion", none), ("vdW", none),
    ("Electrostatics", none)]⟩

/-- `EnergyReport.update_energies`: overwrites the given categories. -/
def updateEnergies (r : EnergyReport) (upd : List (String × ℚ)) : EnergyReport :=
  ⟨upd.foldl (fun es u => upsert es u.1 (some u.2)) r.energies⟩

/-- `report.energies.pop(k)`. -/
def popEnergy (r : EnergyReport) (k : String) : EnergyReport :=
  ⟨r.energies.filter (fun p => decide (p.1 ≠ k))⟩

/-- `_get_openmm_energies` of openff/system/drivers/openmm.py, from the raw
per-force energies onward: collect the per-class energies, update the report
with Bond, Angle, canonicalized Torsion and Nonbonded (falling back to the
canonicalized nonbonded sum when no `Nonbonded` entry was collected), then pop
`vdW` and `Electrostatics`. -/
def getOpenmmEnergies (sys : OmmSystem) : EnergyReport :=
  let es := collectRawEnergies sys
  let report := updateEnergies initEnergyReport
    [("Bond", getDQ es "HarmonicBondForce"),
     ("Angle", getDQ es "HarmonicAngleForce"),
     ("Torsion", canonicalizeTorsionEnergies es),
     ("Nonbonded",
       match alookup es "Nonbonded" with
       | some v => v
       | none => canonicalizeNonbondedEnergies es)]
  popEnergy (popEnergy report "vdW") "Electrostatics"

/-- The number of forces of one class in a system. -/
def countKind (sys : OmmSystem) (k : OmmForceKind) : Nat :=
  (sys.filter (fun f => f.1 = k)).length

/-- The claim's reading of the Torsion category: the total energy of
`PeriodicTorsionForce` and `RBTorsionForce` instances of the system. -/
def claimTorsionTotal (sys : OmmSystem) : ℚ :=
  ((sys.filter (fun f => f.1 = .periodicTorsion ∨ f.1 = .rbTorsion)).map
    (fun f => f.2)).sum

/-- The total energy of the `PeriodicTorsionForce` instances of the system. -/
def ptTotal (sys : OmmSystem) : ℚ :=
  ((sys.filter (fun f => f.1 = .periodicTorsion)).map (fun f => f.2)).sum

/-- The total energy of the `NonbondedForce`, `CustomNonbondedForce` and
`CustomBondForce` instances of the system. -/
def nbTotal (sys : OmmSystem) : ℚ :=
  ((sys.filter
      (fun f => f.1 = .nonbonded ∨ f.1 = .customNonbonded ∨ f.1 = .customBond)).map
    (fun f => f.2)).sum

/-- The number of nonbonded-class forces in a system. -/
def nbCount (sys : OmmSystem) : Nat :=
  (sys.filter
    (fun f => f.1 = .nonbonded ∨ f.1 = .customNonbonded ∨ f.1 = .customBond)).length

/-- The energy of the most recent `PeriodicTorsionForce` of the system, if
any (dict assignment overwrites, so the last instance wins). -/
def lastPTEnergy : OmmSystem → Option ℚ
  | [] => none
  | f :: rest =>
    match lastPTEnergy rest with
    | some v => some v
    | none => if f.1 = .periodicTorsion then some f.2 else none

/-- A system holding a single Ryckaert-Bellemans torsion force with 5 kJ/mol
of potential energy. -/
def rbOnlySystem : OmmSystem :=
  [(.rbTorsion, 5)]

/-- Base charges of methane under the `formal_charge` method (all zero), as in
`TestSMIRNOFFChargeIncrements.test_overlapping_increments`. -/
def methaneBaseCharges : List ℚ :=
  [0, 0, 0, 0, 0]

/-- The four matches of the increment pattern `[C:1][H:2]` on methane
(atoms: 0 = C, 1..4 = H), each adding 0.111 e to the carbon and subtracting
0.111 e from the hydrogen. -/
def methaneChargeIncrements : List (Nat × Nat × ℚ) :=
  [(0, 1, 111/1000), (0, 2, 111/1000), (0, 3, 111/1000), (0, 4, 111/1000)]

/-- A system with one force of each category the driver reports. -/
def demoOmmSystem : OmmSystem :=
  [(.harmonicBond, 2), (.harmonicAngle, 7), (.periodicTorsion, 3),
   (.nonbonded, 4), (.customBond, 6)]

theorem sum_map_add {α : Type} (l : List α) (f g : α → ℚ) :
    (l.map (fun x => f x + g x)).sum = (l.map f).sum + (l.map g).sum := by
  induction l with
  | nil => simp
  | cons x xs ih =>
    simp only [List.map_cons, List.sum_cons, ih]
    ring

theorem sum_range_ite (n a : Nat) (x : ℚ) (h : a < n) :
    ((List.range n).map (fun i => if a = i then x else 0)).sum = x := by
  induction n with
  | zero => omega
  | succ n ih =>
    rw [List.range_succ, List.map_append, List.sum_append]
    by_cases hc : a = n
    · subst hc
      have hz : ((List.range a).map (fun i => if a = i then x else 0)).sum = 0 := by
        apply List.sum_eq_zero
        intro y hy
        rw [List.mem_map] at hy
        obtain ⟨i, hi, hrfl⟩ := hy
        rw [List.mem_range] at hi
        rw [← hrfl, if_neg (by omega)]
      simp [hz]
    · have ha : a < n := by omega
      simp [ih ha, hc]

theorem sum_range_pairContribution (n : Nat) (pairs : List (Nat × ℚ))
    (h : ∀ p ∈ pairs, p.1 < n) :
    ((List.range n).map (pairContribution pairs)).sum = (pairs.map Prod.snd).sum := by
  induction pairs with
  | nil =>
    have hz : pairContribution ([] : List (Nat × ℚ)) = fun _ => 0 := by
      funext i
      simp [pairContribution]
    simp [hz]
  | cons p ps ih =>
    have hp : p.1 < n := h p (by simp)
    have hps : ∀ q ∈ ps, q.1 < n := fun q hq => h q (by simp [hq])
    have hfun : pairContribution (p :: ps) =
        fun i => (if p.1 = i then p.2 else 0) + pairContribution ps i := by
      funext i
      simp [pairContribution]
    calc ((List.range n).map (pairContribution (p :: ps))).sum
        = ((List.range n).map
            (fun i => (if p.1 = i then p.2 else 0) + pairContribution ps i)).sum := by
          rw [hfun]
      _ = ((List.range n).map (fun i => if p.1 = i then p.2 else 0)).sum +
            ((List.range n).map (pairContribution ps)).sum :=
          sum_map_add (List.range n) _ _
      _ = p.2 + (ps.map Prod.snd).sum := by
          rw [sum_range_ite n p.1 p.2 hp, ih hps]
      _ = ((p :: ps).map Prod.snd).sum := by simp

theorem incrementPairs_snd_sum (incs : List (Nat × Nat × ℚ)) :
    ((incrementPairs incs).map Prod.snd).sum = 0 := by
  induction incs with
  | nil => simp [incrementPairs]
  | cons m ms ih =>
    simp only [incrementPairs, List.flatMap_cons, List.map_append, List.sum_append] at ih ⊢
    simp only [List.map_cons, List.map_nil, List.sum_cons, List.sum_nil]
    rw [ih]
    ring

theorem sum_range_getD (l : List ℚ) :
    ((List.range l.length).map (fun i => l.getD i 0)).sum = l.sum := by
  induction l with
  | nil => simp
  | cons x xs ih =>
    have hcomp : ((fun i => List.getD (x :: xs) i 0) ∘ Nat.succ) =
        fun i => xs.getD i 0 := by
      funext i
      simp [List.getD]
    simp only [List.length_cons, List.range_succ_eq_map, List.map_cons,
      List.map_map, List.sum_cons, List.getD_cons_zero]
    rw [hcomp, ih]

/-- Claim C7: charge increments are applied symmetrically (+x to one atom, -x
to its partner) and overlapping increments accumulate by summation, so the sum
over all atoms of the total increment contribution is exactly 0 and the
molecule's net charge is unchanged. -/
theorem charge_increments_sum_zero (base : List ℚ) (incs : List (Nat × Nat × ℚ))
    (h : ∀ m ∈ incs, m.1 < base.length ∧ m.2.1 < base.length) :
    totalIncrement base.length incs = 0 ∧
    (applyChargeIncrements base incs).sum = base.sum := by
  have hp : ∀ p ∈ incrementPairs incs, p.1 < base.length := by
    intro p hmem
    simp only [incrementPairs, List.mem_flatMap] at hmem
    obtain ⟨m, hm, hcases⟩ := hmem
    have hlt := h m hm
    simp only [List.mem_cons, List.not_mem_nil, or_false] at hcases
    rcases hcases with h1 | h1 <;> subst h1
    · exact hlt.1
    · exact hlt.2
  have htot : totalIncrement base.length incs = 0 := by
    unfold totalIncrement incrementContribution
    rw [sum_range_pairContribution base.length (incrementPairs incs) hp,
      incrementPairs_snd_sum]
  refine ⟨htot, ?_⟩
  unfold applyChargeIncrements
  rw [sum_map_add (List.range base.length) (fun i => base.getD i 0)
    (incrementContribution incs), sum_range_getD]
  have h2 := htot
  unfold totalIncrement at h2
  rw [h2, add_zero]

/-- Witness for C7 at the methane scenario of `test_overlapping_increments`:
four increments of the pattern matching carbon-hydrogen pairs sum to zero
across the molecule. -/
theorem charge_increments_sum_zero_witness :
    (∀ m ∈ methaneChargeIncrements,
      m.1 < methaneBaseCharges.length ∧ m.2.1 < methaneBaseCharges.length) ∧
    totalIncrement methaneBaseCharges.length methaneChargeIncrements = 0 ∧
    (applyChargeIncrements methaneBaseCharges methaneChargeIncrements).sum =
      methaneBaseCharges.sum :=
  ⟨by decide, charge_increments_sum_zero methaneBaseCharges methaneChargeIncrements (by decide)⟩

/-- Counterexample to claim C1: on water under Sage, where both the TIP3P
library charges and AM1-BCC apply, the resolver's final charges are the
library charges, not the quantum-derived ones — quantum-derived charges do
not override library charges per-atom. -/
theorem library_charge_not_overridden_by_am1bcc_cex :
    resolveMoleculeCharges waterAM1BCCOracle sageWaterInputs =
      [-417/500, 417/1000, 417/1000] ∧
    waterAM1BCCOracle "am1bcc" = [-4/5, 2/5, 2/5] ∧
    (resolveMoleculeCharges waterAM1BCCOracle sageWaterInputs).getD 0 0 ≠
      (waterAM1BCCOracle "am1bcc").getD 0 0 := by
  refine ⟨?_, rfl, ?_⟩
  · norm_num [resolveMoleculeCharges, sageWaterInputs]
  · norm_num [resolveMoleculeCharges, sageWaterInputs, waterAM1BCCOracle]

/-- Claim C1 as amended: for every atom on which both a pattern-matched
library charge and a quantum-derived charge apply (the molecule being fully
covered by library charges and no explicit override supplied), the final
per-atom charge is the LIBRARY charge — library charges take precedence over
quantum-derived charges, and the quantum oracle has no influence on the
result. -/
theorem library_charges_take_precedence_over_am1bcc
    (oracle : String → List ℚ) (m : MoleculeChargeSpec)
    (hover : m.chargeOverride = none)
    (hlen : m.libraryCharges.length = m.nAtoms)
    (hfull : m.libraryCharges.all Option.isSome = true) :
    resolveMoleculeCharges oracle m = m.libraryCharges.map (fun c => c.getD 0) ∧
    ∀ oracle2 : String → List ℚ,
      resolveMoleculeCharges oracle m = resolveMoleculeCharges oracle2 m := by
  have hres : ∀ o : String → List ℚ,
      resolveMoleculeCharges o m = m.libraryCharges.map (fun c => c.getD 0) := by
    intro o
    unfold resolveMoleculeCharges
    rw [hover]
    rw [if_pos ⟨hlen, hfull⟩]
  exact ⟨hres oracle, fun oracle2 => by rw [hres oracle, hres oracle2]⟩

/-- Witness for the amended C1 at the water/Sage scenario of
`test_sage_tip3p_charges`. -/
theorem library_charges_take_precedence_over_am1bcc_witness :
    sageWaterInputs.chargeOverride = none ∧
    sageWaterInputs.libraryCharges.length = sageWaterInputs.nAtoms ∧
    sageWaterInputs.libraryCharges.all Option.isSome = true ∧
    resolveMoleculeCharges waterAM1BCCOracle sageWaterInputs =
      sageWaterInputs.libraryCharges.map (fun c => c.getD 0) :=
  ⟨rfl, rfl, rfl,
    (library_charges_take_precedence_over_am1bcc waterAM1BCCOracle sageWaterInputs
      rfl rfl rfl).1⟩

/-- Claim C4: with force-constant anchors (101.0, 123.0) kcal/mol/A**2 at
bond orders 1 and 2 and an external fractional bond order of 1.55, the
resolved force constant is 113.1 kcal/mol/A**2 within 1e-3 relative
tolerance, and length anchors (1.4, 1.3) A yield 1.345 A. -/
theorem bond_order_interpolation_values :
    (alookup (buildBondPotentials xmlFFBOParams demoCOTopology demoExternalBO)
        ⟨[0, 1], none, some (31/20)⟩).isSome = true ∧
    |((alookup (buildBondPotentials xmlFFBOParams demoCOTopology demoExternalBO)
        ⟨[0, 1], none, some (31/20)⟩).getD (0, 0)).1 - 1131/10| ≤
      1/1000 * (1131/10) ∧
    |((alookup (buildBondPotentials xmlFFBOParams demoCOTopology demoExternalBO)
        ⟨[0, 1], none, some (31/20)⟩).getD (0, 0)).2 - 269/200| ≤
      1/1000 * (269/200) := by
  have hbuild : buildBondPotentials xmlFFBOParams demoCOTopology demoExternalBO =
      [(⟨[0, 1], none, some (31/20)⟩,
        (interpolateLinear 101 123 (31/20), interpolateLinear (7/5) (13/10) (31/20)))] := by
    norm_num [buildBondPotentials, xmlFFBOParams, demoCOTopology, demoExternalBO,
      lastMatchingBO, upsert]
  rw [hbuild]
  norm_num [alookup, interpolateLinear]

/-- Claim C5: the interpolated bond parameters depend only on the graph, the
elements and the externally supplied fractional bond orders — two topologies
differing only in their stored fractional bond orders or conformer
coordinates produce identical results. -/
theorem interpolation_ignores_stored_topology_state
    (params : List BondBOParameter) (externalBO : Nat → Nat → ℚ)
    (t1 t2 : BondTopology)
    (helems : t1.elements = t2.elements) (hbonds : t1.bonds = t2.bonds) :
    buildBondPotentials params t1 externalBO =
      buildBondPotentials params t2 externalBO := by
  cases t1
  cases t2
  simp only at helems hbonds
  subst helems
  subst hbonds
  rfl

/-- Witness for C5: perturbing the stored bond orders and conformers of the
carbon-oxygen topology leaves the interpolated parameters unchanged. -/
theorem interpolation_ignores_stored_topology_state_witness :
    demoCOTopology.elements = demoCOTopologyPerturbed.elements ∧
    demoCOTopology.bonds = demoCOTopologyPerturbed.bonds ∧
    demoCOTopology.storedBondOrders ≠ demoCOTopologyPerturbed.storedBondOrders ∧
    demoCOTopology.conformers ≠ demoCOTopologyPerturbed.conformers ∧
    buildBondPotentials xmlFFBOParams demoCOTopology demoExternalBO =
      buildBondPotentials xmlFFBOParams demoCOTopologyPerturbed demoExternalBO :=
  ⟨rfl, rfl, by decide, by decide,
    interpolation_ignores_stored_topology_state xmlFFBOParams demoExternalBO
      demoCOTopology demoCOTopologyPerturbed rfl rfl⟩

/-- Claim C6: a per-category assignment handler given a legacy
parameter-definition object whose tag is outside its allowed set fails with
`InvalidParameterHandlerError`, eagerly — the error does not depend on the
topology or on any matching. -/
theorem foreign_parameter_handler_rejected (h : HandlerSpec)
    (pset : ParameterDefinitionSet) (matcher : String → List (List Nat))
    (hnotin : h.allowedParameterHandlers.contains pset.tag = false) :
    fromToolkitAccept h pset matcher = .error "InvalidParameterHandlerError" := by
  have hcond : ¬ (h.allowedParameterHandlers.contains pset.tag = true) := by
    rw [hnotin]
    simp
  unfold fromToolkitAccept
  rw [if_neg hcond]

/-- Witness for C6 in both directions, as in
`test_allowed_parameter_handler_types`: the angle handler rejects a dummy
definition and the dummy handler rejects an angle definition. -/
theorem foreign_parameter_handler_rejected_witness :
    angleHandlerSpec.allowedParameterHandlers.contains dummyDefinitionSet.tag = false ∧
    dummyHandlerSpec.allowedParameterHandlers.contains angleDefinitionSet.tag = false ∧
    fromToolkitAccept angleHandlerSpec dummyDefinitionSet (fun _ => []) =
      .error "InvalidParameterHandlerError" ∧
    fromToolkitAccept dummyHandlerSpec angleDefinitionSet (fun _ => []) =
      .error "InvalidParameterHandlerError" :=
  ⟨rfl, rfl,
    foreign_parameter_handler_rejected angleHandlerSpec dummyDefinitionSet _ rfl,
    foreign_parameter_handler_rejected dummyHandlerSpec angleDefinitionSet _ rfl⟩

/-- Counterexample to claim C2: on formaldehyde's matched trigonal carbon the
improper handler records exactly 3 slot-map entries, but they are
distinguished by the cyclic ordering of the outer atoms in their index
tuples, not by multiplicity — every entry carries multiplicity 0, and no
entry carries multiplicity 1 or 2. -/
theorem improper_multiplicity_indices_cex :
    (storeImproperMatches formaldehydeImproperMatches).length = 3 ∧
    (∀ e ∈ storeImproperMatches formaldehydeImproperMatches, e.1.mult = some 0) ∧
    ¬ (∃ e ∈ storeImproperMatches formaldehydeImproperMatches, e.1.mult = some 1) ∧
    ¬ (∃ e ∈ storeImproperMatches formaldehydeImproperMatches, e.1.mult = some 2) := by
  decide

/-- Claim C2 as amended: for a matched 3-substituent trigonal center the
improper-torsion slot map holds exactly 3 entries, keyed by the central atom
followed by the three cyclic orderings of the outer substituents, in
generation order; the entries are distinct through their atom-index tuples
and all carry multiplicity index 0. -/
theorem improper_three_cyclic_slots (o1 c o2 o3 : Nat) (s : String)
    (h12 : o1 ≠ o2) (h13 : o1 ≠ o3) (h23 : o2 ≠ o3) :
    storeImproperMatches [((o1, c, o2, o3), s)] =
      [(⟨[c, o1, o2, o3], some 0, none⟩, ⟨s, some 0, "ImproperTorsions"⟩),
       (⟨[c, o2, o3, o1], some 0, none⟩, ⟨s, some 0, "ImproperTorsions"⟩),
       (⟨[c, o3, o1, o2], some 0, none⟩, ⟨s, some 0, "ImproperTorsions"⟩)] ∧
    (storeImproperMatches [((o1, c, o2, o3), s)]).length = 3 ∧
    ∀ e ∈ storeImproperMatches [((o1, c, o2, o3), s)], e.1.mult = some 0 := by
  have hmain : storeImproperMatches [((o1, c, o2, o3), s)] =
      [(⟨[c, o1, o2, o3], some 0, none⟩, ⟨s, some 0, "ImproperTorsions"⟩),
       (⟨[c, o2, o3, o1], some 0, none⟩, ⟨s, some 0, "ImproperTorsions"⟩),
       (⟨[c, o3, o1, o2], some 0, none⟩, ⟨s, some 0, "ImproperTorsions"⟩)] := by
    simp [storeImproperMatches, cyclicTriples, upsert, TopologyKey.mk.injEq,
      h12, h13, h23, Ne.symm h12, Ne.symm h13, Ne.symm h23]
  refine ⟨hmain, ?_, ?_⟩
  · rw [hmain]
    rfl
  · rw [hmain]
    intro e he
    simp only [List.mem_cons, List.not_mem_nil, or_false] at he
    rcases he with h | h | h <;> subst h <;> rfl

/-- Witness for the amended C2 at the formaldehyde scenario of
`test_store_improper_torsion_matches`. -/
theorem improper_three_cyclic_slots_witness :
    storeImproperMatches [((1, 0, 2, 3), "[*:1]~[#6X3:2](~[*:3])~[*:4]")] =
      [(⟨[0, 1, 2, 3], some 0, none⟩,
        ⟨"[*:1]~[#6X3:2](~[*:3])~[*:4]", some 0, "ImproperTorsions"⟩),
       (⟨[0, 2, 3, 1], some 0, none⟩,
        ⟨"[*:1]~[#6X3:2](~[*:3])~[*:4]", some 0, "ImproperTorsions"⟩),
       (⟨[0, 3, 1, 2], some 0, none⟩,
        ⟨"[*:1]~[#6X3:2](~[*:3])~[*:4]", some 0, "ImproperTorsions"⟩)] :=
  (improper_three_cyclic_slots 1 0 2 3 "[*:1]~[#6X3:2](~[*:3])~[*:4]"
    (by decide) (by decide) (by decide)).1

/-- Claim C3: a graph-implied bond, angle or proper torsion left without a
slot-map entry after all patterns are tried aborts the build with
`UnassignedValenceParameterException` (bonds, angles) or
`UnassignedProperTorsionParameterException` (torsions), whose payload lists
the unmatched atom indices with their element symbols; no partially
parameterized result is returned. -/
theorem unassigned_valence_raises (t : ValenceTopology)
    (bondKeys angleKeys properKeys : List (List Nat))
    (h : uncovered (impliedBonds t) bondKeys ≠ [] ∨
         uncovered (impliedAngles t) angleKeys ≠ [] ∨
         uncovered (impliedPropers t) properKeys ≠ []) :
    (∀ r, buildValence t bondKeys angleKeys properKeys ≠ .ok r) ∧
    (uncovered (impliedBonds t) bondKeys ≠ [] →
      buildValence t bondKeys angleKeys properKeys =
        .error (mkUnassignedReport t "BondHandler"
          "UnassignedValenceParameterException"
          (uncovered (impliedBonds t) bondKeys))) ∧
    (uncovered (impliedBonds t) bondKeys = [] →
      uncovered (impliedAngles t) angleKeys ≠ [] →
      buildValence t bondKeys angleKeys properKeys =
        .error (mkUnassignedReport t "AngleHandler"
          "UnassignedValenceParameterException"
          (uncovered (impliedAngles t) angleKeys))) ∧
    (uncovered (impliedBonds t) bondKeys = [] →
      uncovered (impliedAngles t) angleKeys = [] →
      uncovered (impliedPropers t) properKeys ≠ [] →
      buildValence t bondKeys angleKeys properKeys =
        .error (mkUnassignedReport t "ProperTorsionHandler"
          "UnassignedProperTorsionParameterException"
          (uncovered (impliedPropers t) properKeys))) := by
  unfold buildValence checkValenceCoverage
  by_cases hb : uncovered (impliedBonds t) bondKeys = []
  · by_cases ha : uncovered (impliedAngles t) angleKeys = []
    · by_cases hp : uncovered (impliedPropers t) properKeys = []
      · rcases h with h1 | h1 | h1 <;> exact absurd (by assumption) h1
      · simp [hb, ha, hp]
    · simp [hb, ha]
  · simp [hb]

/-- Witness for C3: water with empty slot maps fails on its two unmatched
bonds, reporting their indices and element symbols. -/
theorem unassigned_valence_raises_witness :
    uncovered (impliedBonds waterValenceTopology) [] ≠ [] ∧
    buildValence waterValenceTopology [] [] [] =
      .error (mkUnassignedReport waterValenceTopology "BondHandler"
        "UnassignedValenceParameterException"
        (uncovered (impliedBonds waterValenceTopology) [])) ∧
    mkUnassignedReport waterValenceTopology "BondHandler"
        "UnassignedValenceParameterException"
        (uncovered (impliedBonds waterValenceTopology) []) =
      ⟨"BondHandler", "UnassignedValenceParameterException",
        [([0, 1], ["O", "H"]), ([0, 2], ["O", "H"])]⟩ :=
  ⟨by decide,
    (unassigned_valence_raises waterValenceTopology [] [] []
      (Or.inl (by decide))).2.1 (by decide),
    by decide⟩

theorem flatten_getElem_block {α : Type} (blocks : List (List α)) :
    ∀ (k : Nat) (hk : k < blocks.length) (r : Nat),
      r < (blocks.get ⟨k, hk⟩).length →
      blocks.flatten[(((blocks.take k).map List.length).sum + r)]? =
        (blocks.get ⟨k, hk⟩)[r]? := by
  induction blocks with
  | nil =>
    intro k hk
    simp at hk
  | cons b bs ih =>
    intro k hk r hr
    cases k with
    | zero =>
      simp only [List.take_zero, List.map_nil, List.sum_nil, Nat.zero_add,
        List.flatten_cons]
      rw [List.getElem?_append_left (show r < b.length from hr)]
      rfl
    | succ k =>
      simp only [List.take_succ_cons, List.map_cons, List.sum_cons,
        List.flatten_cons, Nat.add_assoc]
      rw [List.getElem?_append_right (Nat.le_add_right _ _)]
      simp only [Nat.add_sub_cancel_left]
      exact ih k (Nat.lt_of_succ_lt_succ hk) r hr

theorem blockOffset_eq (mols : List MoleculeVS) (k : Nat) :
    blockOffset mols k =
      (((mols.map moleculeParticles).take k).map List.length).sum := by
  unfold blockOffset
  rw [List.map_take]

/-- Claim C8 as amended: every molecule's virtual sites are appended directly
after that molecule's real atoms (grouped by source molecule, in match order),
so a virtual site's particle index exceeds the indices of its own molecule's
atoms — but not necessarily those of later molecules' atoms. -/
theorem vsites_follow_their_molecule_atoms (mols : List MoleculeVS) (k : Nat)
    (hk : k < mols.length) (i j : Nat)
    (hi : i < (moleculeFinalAtomCharges (mols.get ⟨k, hk⟩)).length)
    (hj : j < (mols.get ⟨k, hk⟩).vsites.length) :
    (particleList mols)[blockOffset mols k + i]? =
      some (.atom ((moleculeFinalAtomCharges (mols.get ⟨k, hk⟩)).get ⟨i, hi⟩)) ∧
    (particleList mols)[blockOffset mols k +
        (moleculeFinalAtomCharges (mols.get ⟨k, hk⟩)).length + j]? =
      some (.vsite (vsiteCharge ((mols.get ⟨k, hk⟩).vsites.get ⟨j, hj⟩))) ∧
    blockOffset mols k + i <
      blockOffset mols k + (moleculeFinalAtomCharges (mols.get ⟨k, hk⟩)).length + j := by
  have hk2 : k < (mols.map moleculeParticles).length := by
    rw [List.length_map]
    exact hk
  have hget : (mols.map moleculeParticles).get ⟨k, hk2⟩ =
      moleculeParticles (mols.get ⟨k, hk⟩) := by
    simp [List.get_eq_getElem, List.getElem_map]
  have hpl : particleList mols = (mols.map moleculeParticles).flatten := rfl
  have hblock : (moleculeParticles (mols.get ⟨k, hk⟩)).length =
      (moleculeFinalAtomCharges (mols.get ⟨k, hk⟩)).length +
        (mols.get ⟨k, hk⟩).vsites.length := by
    unfold moleculeParticles
    rw [List.length_append, List.length_map, List.length_map]
  refine ⟨?_, ?_, by omega⟩
  · rw [hpl, blockOffset_eq,
      flatten_getElem_block (mols.map moleculeParticles) k hk2 i
        (by rw [hget, hblock]; omega),
      hget]
    unfold moleculeParticles
    rw [List.getElem?_append_left (by rw [List.length_map]; exact hi),
      List.getElem?_eq_getElem (by rw [List.length_map]; exact hi)]
    rw [List.getElem_map]
    rfl
  · rw [hpl, blockOffset_eq, Nat.add_assoc,
      flatten_getElem_block (mols.map moleculeParticles) k hk2
        ((moleculeFinalAtomCharges (mols.get ⟨k, hk⟩)).length + j)
        (by rw [hget, hblock]; omega),
      hget]
    unfold moleculeParticles
    rw [List.getElem?_append_right (by rw [List.length_map]; omega)]
    rw [List.length_map]
    simp only [Nat.add_sub_cancel_left]
    rw [List.getElem?_eq_getElem (by rw [List.length_map]; exact hj)]
    rw [List.getElem_map]
    rfl

/-- Counterexample to claim C8: in the two-chloromethane topology of
`test_create_force`, the first molecule's virtual site sits at particle index
5, before the second molecule's real atoms at indices 6..10 — a virtual-site
particle index IS smaller than a real atom's index. -/
theorem vsite_index_before_atom_cex :
    ((particleList demoVSMols).get? 5).map Particle.isVSite = some true ∧
    ((particleList demoVSMols).get? 6).map Particle.isVSite = some false ∧
    ¬ noVSiteBeforeAtom (particleList demoVSMols) := by
  refine ⟨by decide, by decide, ?_⟩
  intro hall
  have h56 := hall ⟨5, by decide⟩ ⟨6, by decide⟩ (by decide) (by decide)
  exact absurd h56 (by decide)

/-- Witness for the amended C8 at the second chloromethane molecule: its atom
0 sits at particle index 6 and its virtual site at particle index 11. -/
theorem vsites_follow_their_molecule_atoms_witness :
    (particleList demoVSMols)[blockOffset demoVSMols 1 + 0]? =
      some (.atom ((moleculeFinalAtomCharges
        (demoVSMols.get ⟨1, by decide⟩)).get ⟨0, by decide⟩)) ∧
    (particleList demoVSMols)[blockOffset demoVSMols 1 +
        (moleculeFinalAtomCharges (demoVSMols.get ⟨1, by decide⟩)).length + 0]? =
      some (.vsite (vsiteCharge
        ((demoVSMols.get ⟨1, by decide⟩).vsites.get ⟨0, by decide⟩))) ∧
    blockOffset demoVSMols 1 + 0 <
      blockOffset demoVSMols 1 +
        (moleculeFinalAtomCharges (demoVSMols.get ⟨1, by decide⟩)).length + 0 :=
  vsites_follow_their_molecule_atoms demoVSMols 1 (by decide) 0 0 (by decide) (by decide)

theorem sum_map_neg {α : Type} (l : List α) (f : α → ℚ) :
    (l.map (fun a => -(f a))).sum = -((l.map f).sum) := by
  induction l with
  | nil => simp
  | cons a as ih =>
    simp only [List.map_cons, List.sum_cons, ih]
    ring

theorem sum_map_sum_swap {α : Type} (l : List α) (n : Nat) (g : α → Nat → ℚ) :
    ((List.range n).map (fun i => (l.map (fun a => g a i)).sum)).sum =
      (l.map (fun a => ((List.range n).map (g a)).sum)).sum := by
  induction l with
  | nil => simp
  | cons a as ih =>
    have hfun : (fun i => (((a :: as).map (fun x => g x i)).sum)) =
        fun i => g a i + ((as.map (fun x => g x i)).sum) := by
      funext i
      simp
    rw [hfun,
      sum_map_add (List.range n) (g a) (fun i => ((as.map (fun x => g x i)).sum)),
      ih]
    simp

theorem moleculeParticles_charge_sum (m : MoleculeVS)
    (hwf : ∀ v ∈ m.vsites, v.orientation.length = v.increments.length ∧
      ∀ o ∈ v.orientation, o < m.atomCharges.length) :
    ((moleculeParticles m).map Particle.charge).sum = m.atomCharges.sum := by
  unfold moleculeParticles
  rw [List.map_append, List.sum_append, List.map_map, List.map_map]
  have h1 : Particle.charge ∘ Particle.atom = id := by
    funext c
    rfl
  have h2 : (Particle.charge ∘ fun v => Particle.vsite (vsiteCharge v)) =
      fun v => -(v.increments.sum) := by
    funext v
    rfl
  rw [h1, List.map_id, h2]
  have h3 : (moleculeFinalAtomCharges m).sum =
      m.atomCharges.sum + (m.vsites.map (fun v => v.increments.sum)).sum := by
    unfold moleculeFinalAtomCharges
    rw [sum_map_add (List.range m.atomCharges.length)
      (fun i => m.atomCharges.getD i 0) (vsiteIncrementOn m.vsites),
      sum_range_getD]
    congr 1
    have hv : vsiteIncrementOn m.vsites = fun i =>
        (m.vsites.map
          (fun v => pairContribution (v.orientation.zip v.increments) i)).sum := by
      funext i
      rfl
    rw [hv, sum_map_sum_swap m.vsites m.atomCharges.length
      (fun v i => pairContribution (v.orientation.zip v.increments) i)]
    have hper : ∀ v ∈ m.vsites,
        ((List.range m.atomCharges.length).map
          (pairContribution (v.orientation.zip v.increments))).sum =
        v.increments.sum := by
      intro v hv2
      obtain ⟨hlen, hor⟩ := hwf v hv2
      rw [sum_range_pairContribution m.atomCharges.length
        (v.orientation.zip v.increments) ?hp]
      case hp =>
        intro p hp2
        rcases p with ⟨o, x⟩
        exact hor o (List.of_mem_zip hp2).1
      rw [List.map_snd_zip v.orientation v.increments (le_of_eq hlen.symm)]
    exact congrArg List.sum (List.map_congr_left hper)
  rw [h3, sum_map_neg m.vsites (fun v => v.increments.sum)]
  ring

/-- Claim C9: virtual-site charge assignment conserves total charge — the sum
of the per-particle charges over real atoms and appended virtual sites equals
the sum of the molecules' formal total charges, each site's charge being
exactly compensated by the increments pulled from its orientation atoms. -/
theorem vsite_total_charge_conserved (mols : List MoleculeVS)
    (hwf : ∀ m ∈ mols, m.atomCharges.sum = m.formalCharge ∧
      ∀ v ∈ m.vsites, v.orientation.length = v.increments.length ∧
        ∀ o ∈ v.orientation, o < m.atomCharges.length) :
    ((particleList mols).map Particle.charge).sum =
      (mols.map MoleculeVS.formalCharge).sum := by
  induction mols with
  | nil => simp [particleList]
  | cons m ms ih =>
    have hm := hwf m (by simp)
    have hms : ∀ m2 ∈ ms, m2.atomCharges.sum = m2.formalCharge ∧
        ∀ v ∈ m2.vsites, v.orientation.length = v.increments.length ∧
          ∀ o ∈ v.orientation, o < m2.atomCharges.length :=
      fun m2 h2 => hwf m2 (by simp [h2])
    have hplc : particleList (m :: ms) = moleculeParticles m ++ particleList ms := by
      simp [particleList]
    rw [hplc, List.map_append, List.sum_append,
      moleculeParticles_charge_sum m hm.2, hm.1, ih hms]
    simp

/-- Witness for C9 at the chloromethane topology of `test_create_force`: the
total particle charge is the molecules' total formal charge. -/
theorem vsite_total_charge_conserved_witness :
    (∀ m ∈ demoVSMols, m.atomCharges.sum = m.formalCharge ∧
      ∀ v ∈ m.vsites, v.orientation.length = v.increments.length ∧
        ∀ o ∈ v.orientation, o < m.atomCharges.length) ∧
    ((particleList demoVSMols).map Particle.charge).sum =
      (demoVSMols.map MoleculeVS.formalCharge).sum := by
  have hwf : ∀ m ∈ demoVSMols, m.atomCharges.sum = m.formalCharge ∧
      ∀ v ∈ m.vsites, v.orientation.length = v.increments.length ∧
        ∀ o ∈ v.orientation, o < m.atomCharges.length := by
    intro m hm
    simp only [demoVSMols, demoChloromethane, demoChloromethaneRev,
      List.mem_cons, List.not_mem_nil, or_false] at hm
    rcases hm with h | h <;> subst h <;>
      refine ⟨by norm_num, ?_⟩ <;>
      intro v hv <;>
      simp only [List.mem_cons, List.not_mem_nil, or_false] at hv <;>
      subst hv <;>
      exact ⟨rfl, by decide⟩
  exact ⟨hwf, vsite_total_charge_conserved demoVSMols hwf⟩

theorem alookup_upsert_self {α β : Type} [DecidableEq α]
    (m : List (α × β)) (k : α) (v : β) :
    alookup (upsert m k v) k = some v := by
  induction m with
  | nil => simp [upsert, alookup]
  | cons p rest ih =>
    by_cases h : p.1 = k
    · simp [upsert, h, alookup]
    · simp [upsert, h, alookup, ih]

theorem alookup_upsert_ne {α β : Type} [DecidableEq α]
    (m : List (α × β)) (k key : α) (v : β) (h : key ≠ k) :
    alookup (upsert m k v) key = alookup m key := by
  induction m with
  | nil => simp [upsert, alookup, Ne.symm h]
  | cons p rest ih =>
    by_cases hp : p.1 = k
    · simp [upsert, hp, alookup, Ne.symm h]
    · simp [upsert, hp, alookup, ih]

theorem alookup_append {α β : Type} [DecidableEq α]
    (m1 m2 : List (α × β)) (k : α) :
    alookup (m1 ++ m2) k =
      match alookup m1 k with
      | some v => some v
      | none => alookup m2 k := by
  induction m1 with
  | nil => simp [alookup]
  | cons p rest ih =>
    by_cases hp : p.1 = k
    · simp [alookup, hp]
    · simp [alookup, hp, ih]

theorem alookup_addToKey_self (es : List (String × ℚ)) (k : String) (v : ℚ) :
    alookup (addToKey es k v) k = some ((alookup es k).getD 0 + v) := by
  unfold addToKey
  cases h : alookup es k with
  | none =>
    rw [alookup_append, h]
    simp [alookup]
  | some w =>
    simp [alookup_upsert_self]

theorem alookup_addToKey_ne (es : List (String × ℚ)) (k key : String) (v : ℚ)
    (h : key ≠ k) :
    alookup (addToKey es k v) key = alookup es key := by
  unfold addToKey
  cases hl : alookup es k with
  | none =>
    rw [alookup_append]
    cases hk : alookup es key <;> simp [alookup, Ne.symm h]
  | some w =>
    exact alookup_upsert_ne es k key (w + v) h

theorem collect_preserved (sys : OmmSystem) :
    ∀ (acc : List (String × ℚ)) (key : String),
      key ≠ "HarmonicBondForce" → key ≠ "HarmonicAngleForce" →
      key ≠ "PeriodicTorsionForce" → key ≠ "Nonbonded" →
      alookup (sys.foldl collectStep acc) key = alookup acc key := by
  induction sys with
  | nil =>
    intro acc key _ _ _ _
    rfl
  | cons f rest ih =>
    intro acc key h1 h2 h3 h4
    rw [List.foldl_cons, ih (collectStep acc f) key h1 h2 h3 h4]
    rcases f with ⟨kind, e⟩
    cases kind <;>
      simp [collectStep, alookup_upsert_ne, alookup_addToKey_ne, h1, h2, h3, h4]

theorem nbTotal_cons_of_not (f : OmmForceKind × ℚ) (rest : OmmSystem)
    (h : ¬(f.1 = OmmForceKind.nonbonded ∨ f.1 = OmmForceKind.customNonbonded ∨
      f.1 = OmmForceKind.customBond)) :
    nbTotal (f :: rest) = nbTotal rest := by
  simp [nbTotal, List.filter_cons, h]

theorem nbCount_cons_of_not (f : OmmForceKind × ℚ) (rest : OmmSystem)
    (h : ¬(f.1 = OmmForceKind.nonbonded ∨ f.1 = OmmForceKind.customNonbonded ∨
      f.1 = OmmForceKind.customBond)) :
    nbCount (f :: rest) = nbCount rest := by
  simp [nbCount, List.filter_cons, h]

theorem collect_nonbonded (sys : OmmSystem) :
    ∀ acc : List (String × ℚ),
      alookup (sys.foldl collectStep acc) "Nonbonded" =
        match alookup acc "Nonbonded" with
        | some w => some (w + nbTotal sys)
        | none => if nbCount sys = 0 then none else some (nbTotal sys) := by
  induction sys with
  | nil =>
    intro acc
    cases h : alookup acc "Nonbonded" <;> simp [nbTotal, nbCount, h]
  | cons f rest ih =>
    intro acc
    rw [List.foldl_cons, ih (collectStep acc f)]
    rcases f with ⟨kind, e⟩
    cases kind
    case nonbonded | customNonbonded | customBond =>
      simp only [collectStep, alookup_addToKey_self]
      cases h : alookup acc "Nonbonded" with
      | none =>
        simp [h, nbTotal, nbCount, List.filter_cons]
      | some w =>
        simp [h, nbTotal, nbCount, List.filter_cons]
        ring
    case harmonicBond | harmonicAngle | periodicTorsion =>
      simp only [collectStep]
      rw [alookup_upsert_ne _ _ _ _ (by decide),
        nbTotal_cons_of_not _ rest (by simp),
        nbCount_cons_of_not _ rest (by simp)]
    case rbTorsion | other =>
      simp only [collectStep]
      rw [nbTotal_cons_of_not _ rest (by simp),
        nbCount_cons_of_not _ rest (by simp)]

theorem collect_pt (sys : OmmSystem) :
    ∀ acc : List (String × ℚ),
      alookup (sys.foldl collectStep acc) "PeriodicTorsionForce" =
        match lastPTEnergy sys with
        | some v => some v
        | none => alookup acc "PeriodicTorsionForce" := by
  induction sys with
  | nil =>
    intro acc
    rfl
  | cons f rest ih =>
    intro acc
    rw [List.foldl_cons, ih (collectStep acc f)]
    rcases f with ⟨kind, e⟩
    have hlast : lastPTEnergy ((kind, e) :: rest) =
        match lastPTEnergy rest with
        | some v => some v
        | none =>
          if (kind, e).1 = OmmForceKind.periodicTorsion then some (kind, e).2
          else none := rfl
    rw [hlast]
    cases hl : lastPTEnergy rest with
    | some v => rfl
    | none =>
      cases kind
      case periodicTorsion =>
        simp only [collectStep]
        rw [alookup_upsert_self]
        rfl
      case harmonicBond =>
        simp only [collectStep]
        rw [alookup_upsert_ne _ _ _ _ (by decide)]
        rfl
      case harmonicAngle =>
        simp only [collectStep]
        rw [alookup_upsert_ne _ _ _ _ (by decide)]
        rfl
      case nonbonded | customNonbonded | customBond =>
        simp only [collectStep]
        rw [alookup_addToKey_ne _ _ _ _ (by decide)]
        rfl
      case rbTorsion | other =>
        simp only [collectStep]
        rfl

theorem collect_kind_absent (sys : OmmSystem) (k : OmmForceKind) (key : String)
    (hk : (k = OmmForceKind.harmonicBond ∧ key = "HarmonicBondForce") ∨
      (k = OmmForceKind.harmonicAngle ∧ key = "HarmonicAngleForce")) :
    ∀ acc : List (String × ℚ), countKind sys k = 0 →
      alookup (sys.foldl collectStep acc) key = alookup acc key := by
  induction sys with
  | nil =>
    intro acc _
    rfl
  | cons f rest ih =>
    intro acc hcnt
    have hf : ¬ f.1 = k := by
      intro hq
      have : (decide (f.1 = k)) = true := by simp [hq]
      simp [countKind, List.filter_cons, this] at hcnt
    have hcnt' : countKind rest k = 0 := by
      simp [countKind, List.filter_cons, hf] at hcnt ⊢
      exact hcnt
    rw [List.foldl_cons, ih (collectStep acc f) hcnt']
    rcases f with ⟨kind, e⟩
    rcases hk with ⟨hk1, hk2⟩ | ⟨hk1, hk2⟩ <;> subst hk1 <;> subst hk2 <;>
      cases kind <;>
      simp only [collectStep] <;>
      first
        | rfl
        | (exact absurd rfl hf)
        | (rw [alookup_upsert_ne _ _ _ _ (by decide)])
        | (rw [alookup_addToKey_ne _ _ _ _ (by decide)])

theorem lastPT_none_of_count0 (sys : OmmSystem)
    (h : countKind sys OmmForceKind.periodicTorsion = 0) :
    lastPTEnergy sys = none := by
  induction sys with
  | nil => rfl
  | cons f rest ih =>
    have hf : ¬ f.1 = OmmForceKind.periodicTorsion := by
      intro hq
      have : (decide (f.1 = OmmForceKind.periodicTorsion)) = true := by simp [hq]
      simp [countKind, List.filter_cons, this] at h
    have h' : countKind rest OmmForceKind.periodicTorsion = 0 := by
      simp [countKind, List.filter_cons, hf] at h ⊢
      exact h
    have hrec := ih h'
    simp [lastPTEnergy, hrec, hf]

theorem ptTotal_zero_of_count0 (sys : OmmSystem)
    (h : countKind sys OmmForceKind.periodicTorsion = 0) :
    ptTotal sys = 0 := by
  unfold ptTotal
  unfold countKind at h
  rw [List.length_eq_zero] at h
  rw [h]
  rfl

theorem nbTotal_zero_of_count0 (sys : OmmSystem) (h : nbCount sys = 0) :
    nbTotal sys = 0 := by
  unfold nbTotal
  unfold nbCount at h
  rw [List.length_eq_zero] at h
  rw [h]
  rfl

theorem lastPT_getD_of_count_le_one (sys : OmmSystem)
    (h : countKind sys OmmForceKind.periodicTorsion ≤ 1) :
    (lastPTEnergy sys).getD 0 = ptTotal sys := by
  induction sys with
  | nil => rfl
  | cons f rest ih =>
    rcases f with ⟨kind, e⟩
    by_cases hf : kind = OmmForceKind.periodicTorsion
    · subst hf
      have hc : countKind ((OmmForceKind.periodicTorsion, e) :: rest)
          OmmForceKind.periodicTorsion =
          countKind rest OmmForceKind.periodicTorsion + 1 := by
        simp [countKind, List.filter_cons]
      have hcnt : countKind rest OmmForceKind.periodicTorsion = 0 := by omega
      have hnone := lastPT_none_of_count0 rest hcnt
      have hzero := ptTotal_zero_of_count0 rest hcnt
      have hlast : lastPTEnergy ((OmmForceKind.periodicTorsion, e) :: rest) =
          some e := by
        simp [lastPTEnergy, hnone]
      have hpt : ptTotal ((OmmForceKind.periodicTorsion, e) :: rest) =
          e + ptTotal rest := by
        simp [ptTotal, List.filter_cons]
      rw [hlast, hpt, hzero]
      simp
    · have hcnt : countKind rest OmmForceKind.periodicTorsion ≤ 1 := by
        simp [countKind, List.filter_cons, hf] at h ⊢
        exact h
      have hrec := ih hcnt
      have hlast : lastPTEnergy ((kind, e) :: rest) = lastPTEnergy rest := by
        cases hl : lastPTEnergy rest <;> simp [lastPTEnergy, hl, hf]
      have hpt : ptTotal ((kind, e) :: rest) = ptTotal rest := by
        simp [ptTotal, List.filter_cons, hf]
      rw [hlast, hpt, hrec]

theorem report_shape (b a t nb : ℚ) :
    popEnergy (popEnergy (updateEnergies initEnergyReport
      [("Bond", b), ("Angle", a), ("Torsion", t), ("Nonbonded", nb)]) "vdW")
      "Electrostatics" =
    ⟨[("Bond", some b), ("Angle", some a), ("Torsion", some t),
      ("Nonbonded", some nb)]⟩ := by
  rfl

theorem getOpenmm_explicit (sys : OmmSystem) :
    getOpenmmEnergies sys =
      ⟨[("Bond", some (getDQ (collectRawEnergies sys) "HarmonicBondForce")),
        ("Angle", some (getDQ (collectRawEnergies sys) "HarmonicAngleForce")),
        ("Torsion", some (canonicalizeTorsionEnergies (collectRawEnergies sys))),
        ("Nonbonded", some (match alookup (collectRawEnergies sys) "Nonbonded" with
          | some v => v
          | none => canonicalizeNonbondedEnergies (collectRawEnergies sys)))]⟩ :=
  report_shape _ _ _ _

theorem canonicalizeTorsion_no_rb (es : List (String × ℚ))
    (h : alookup es "RBTorsionForce" = none) :
    canonicalizeTorsionEnergies es = getDQ es "PeriodicTorsionForce" := by
  unfold canonicalizeTorsionEnergies getDQ
  cases hp : alookup es "PeriodicTorsionForce" <;> simp [hp, h]

theorem canonicalizeNonbonded_zero (es : List (String × ℚ))
    (h1 : alookup es "NonbondedForce" = none)
    (h2 : alookup es "CustomNonbondedForce" = none)
    (h3 : alookup es "CustomBondForce" = none) :
    canonicalizeNonbondedEnergies es = 0 := by
  unfold canonicalizeNonbondedEnergies
  simp [h1, h2, h3]

/-- Claim C10 as amended: the driver's report always holds exactly the keys
Bond, Angle, Torsion and Nonbonded (vdW and Electrostatics are removed);
Nonbonded is the summed energy of the `NonbondedForce`,
`CustomNonbondedForce` and `CustomBondForce` instances; but Torsion is the
`PeriodicTorsionForce` contribution ONLY — `RBTorsionForce` instances are
dropped by the collection loop, so `_canonicalize_torsion_energies` never
sees an RBTorsionForce entry; any category with no corresponding force is
reported as exactly 0.0 kJ/mol. -/
theorem openmm_energies_canonical_report (sys : OmmSystem)
    (hpt : countKind sys OmmForceKind.periodicTorsion ≤ 1) :
    (getOpenmmEnergies sys).energies.map Prod.fst =
      ["Bond", "Angle", "Torsion", "Nonbonded"] ∧
    alookup (getOpenmmEnergies sys).energies "vdW" = none ∧
    alookup (getOpenmmEnergies sys).energies "Electrostatics" = none ∧
    alookup (getOpenmmEnergies sys).energies "Torsion" =
      some (some (ptTotal sys)) ∧
    alookup (getOpenmmEnergies sys).energies "Nonbonded" =
      some (some (nbTotal sys)) ∧
    (countKind sys OmmForceKind.harmonicBond = 0 →
      alookup (getOpenmmEnergies sys).energies "Bond" = some (some 0)) ∧
    (countKind sys OmmForceKind.harmonicAngle = 0 →
      alookup (getOpenmmEnergies sys).energies "Angle" = some (some 0)) ∧
    (countKind sys OmmForceKind.periodicTorsion = 0 → ptTotal sys = 0) ∧
    (nbCount sys = 0 → nbTotal sys = 0) := by
  rw [getOpenmm_explicit]
  have hrb : alookup (collectRawEnergies sys) "RBTorsionForce" = none := by
    unfold collectRawEnergies
    rw [collect_preserved sys [] "RBTorsionForce"
      (by decide) (by decide) (by decide) (by decide)]
    rfl
  refine ⟨rfl, rfl, rfl, ?_, ?_, ?_, ?_,
    fun h => ptTotal_zero_of_count0 sys h,
    fun h => nbTotal_zero_of_count0 sys h⟩
  · show some (some (canonicalizeTorsionEnergies (collectRawEnergies sys))) =
      some (some (ptTotal sys))
    have ht : canonicalizeTorsionEnergies (collectRawEnergies sys) = ptTotal sys := by
      rw [canonicalizeTorsion_no_rb _ hrb]
      unfold getDQ collectRawEnergies
      rw [collect_pt sys []]
      have hgd := lastPT_getD_of_count_le_one sys hpt
      cases hl : lastPTEnergy sys with
      | some v =>
        rw [hl] at hgd
        simpa using hgd
      | none =>
        rw [hl] at hgd
        simpa using hgd
    rw [ht]
  · show some (some (match alookup (collectRawEnergies sys) "Nonbonded" with
      | some v => v
      | none => canonicalizeNonbondedEnergies (collectRawEnergies sys))) =
      some (some (nbTotal sys))
    have hcol : alookup (collectRawEnergies sys) "Nonbonded" =
        if nbCount sys = 0 then none else some (nbTotal sys) := by
      unfold collectRawEnergies
      rw [collect_nonbonded sys []]
      rfl
    by_cases hc : nbCount sys = 0
    · rw [hcol, if_pos hc]
      have h1 : alookup (collectRawEnergies sys) "NonbondedForce" = none := by
        unfold collectRawEnergies
        rw [collect_preserved sys [] "NonbondedForce"
          (by decide) (by decide) (by decide) (by decide)]
        rfl
      have h2 : alookup (collectRawEnergies sys) "CustomNonbondedForce" = none := by
        unfold collectRawEnergies
        rw [collect_preserved sys [] "CustomNonbondedForce"
          (by decide) (by decide) (by decide) (by decide)]
        rfl
      have h3 : alookup (collectRawEnergies sys) "CustomBondForce" = none := by
        unfold collectRawEnergies
        rw [collect_preserved sys [] "CustomBondForce"
          (by decide) (by decide) (by decide) (by decide)]
        rfl
      rw [canonicalizeNonbonded_zero _ h1 h2 h3, nbTotal_zero_of_count0 sys hc]
    · rw [hcol, if_neg hc]
  · intro hcnt
    have hb : alookup (collectRawEnergies sys) "HarmonicBondForce" = none := by
      unfold collectRawEnergies
      rw [collect_kind_absent sys OmmForceKind.harmonicBond "HarmonicBondForce"
        (Or.inl ⟨rfl, rfl⟩) [] hcnt]
      rfl
    show some (some (getDQ (collectRawEnergies sys) "HarmonicBondForce")) =
      some (some 0)
    unfold getDQ
    rw [hb]
    rfl
  · intro hcnt
    have ha : alookup (collectRawEnergies sys) "HarmonicAngleForce" = none := by
      unfold collectRawEnergies
      rw [collect_kind_absent sys OmmForceKind.harmonicAngle "HarmonicAngleForce"
        (Or.inr ⟨rfl, rfl⟩) [] hcnt]
      rfl
    show some (some (getDQ (collectRawEnergies sys) "HarmonicAngleForce")) =
      some (some 0)
    unfold getDQ
    rw [ha]
    rfl

/-- Counterexample to claim C10: on a system holding one `RBTorsionForce`
with 5 kJ/mol, the claim's Torsion total (PeriodicTorsionForce plus
RBTorsionForce contributions) is 5, yet the driver reports Torsion as 0 —
the collection loop drops `RBTorsionForce` instances, so
`_canonicalize_torsion_energies` finds no RBTorsionForce entry to add. -/
theorem rb_torsion_energy_dropped_cex :
    claimTorsionTotal rbOnlySystem = 5 ∧
    alookup (getOpenmmEnergies rbOnlySystem).energies "Torsion" =
      some (some 0) ∧
    (5 : ℚ) ≠ 0 := by
  refine ⟨?_, rfl, by norm_num⟩
  norm_num [claimTorsionTotal, rbOnlySystem]

/-- Witness for the amended C10 on a system with one force per reported
category. -/
theorem openmm_energies_canonical_report_witness :
    countKind demoOmmSystem OmmForceKind.periodicTorsion ≤ 1 ∧
    alookup (getOpenmmEnergies demoOmmSystem).energies "Torsion" =
      some (some (ptTotal demoOmmSystem)) ∧
    alookup (getOpenmmEnergies demoOmmSystem).energies "Nonbonded" =
      some (some (nbTotal demoOmmSystem)) ∧
    alookup (getOpenmmEnergies demoOmmSystem).energies "vdW" = none :=
  ⟨by decide,
    (openmm_energies_canonical_report demoOmmSystem (by decide)).2.2.2.1,
    (openmm_energies_canonical_report demoOmmSystem (by decide)).2.2.2.2.1,
    (openmm_energies_canonical_report demoOmmSystem (by decide)).2.2.1⟩
